import Mathlib

/-!
Verification of the TurboHAT ADC driver (src/turbo_hat.py).

The driver talks to a TI ADS112C04 A/D converter over an I2C bus and two
GPIO lines (a reset output and a data-ready input).  We embed the driver
shallowly: every externally visible action (GPIO configuration, GPIO
reads/writes, I2C transactions, sleeps) is recorded as an `Event` in a
trace, and the environment (the levels read from the data-ready line and
the bytes/words delivered by the bus) is an explicit `Env` parameter.
Methods return their result, the (unchanged) driver state, and the trace
of events they issued, in program order.
-/

/-- One externally visible action of the driver.  GPIO events mirror the
RPi.GPIO calls, I2C events mirror the smbus calls (`write_byte_data`,
`write_byte`, `read_byte_data`, `read_word_data`), `sleep10ms` mirrors
`time.sleep (0.01)`. -/
inductive Event where
  | gpioSetupOut (pin : Nat)
  | gpioSetupInPullUp (pin : Nat)
  | gpioOutput (pin : Nat) (level : Bool)
  | gpioInput (pin : Nat)
  | sleep10ms
  | i2cWriteByteData (addr cmd val : Nat)
  | i2cWriteByte (addr val : Nat)
  | i2cReadByteData (addr cmd : Nat)
  | i2cReadWordData (addr cmd : Nat)
  | gpioCleanup
  | i2cClose
deriving DecidableEq

/-- The environment the driver runs against: the level of the DRDY line
(active low) at the n-th poll, the byte returned by `read_byte_data` for a
given command byte, and the 16-bit word returned by `read_word_data`. -/
structure Env where
  drdy : Nat → Bool
  regByte : Nat → Nat
  word : Nat

/-- Driver state: the instance attributes assigned in `TurboHAT.__init__`
(the I2C bus handle itself carries no data relevant to the protocol and is
represented by the trace of I2C events instead). -/
structure TurboHAT where
  _address : Nat
  _reset_pin : Nat
  _drdy_pin : Nat
  _ref_voltage : Nat
  _data_rate : Nat
deriving DecidableEq

namespace TurboHAT

/-- Reset the ADC -/
def CMD_RESET : Nat := 0x06
/-- Start or restart conversion -/
def CMD_START_SYNC : Nat := 0x08
/-- Power down the ADC -/
def CMD_PWR_DOWN : Nat := 0x02
/-- Load ADC output with data -/
def CMD_RDATA : Nat := 0x10
/-- Read a register; address in bits 3,2 -/
def CMD_RREG : Nat := 0x20
/-- Write register; address in bits 3,2 -/
def CMD_WREG : Nat := 0x40

/-- Configuration register 0 -/
def REG_CFG_0 : Nat := 0x00
/-- Configuration register 1 -/
def REG_CFG_1 : Nat := 0x01
/-- Configuration register 2 -/
def REG_CFG_2 : Nat := 0x02
/-- Configuration register 3 -/
def REG_CFG_3 : Nat := 0x03

/-- Internal 2.048 volt reference -/
def VREF_INT_2048 : Nat := 0x00
/-- External reference on REFP, REFN pins -/
def VREF_EXT : Nat := 0x02
/-- Analog supply AVDD - AVSS used as reference -/
def VREF_SUP : Nat := 0x04

/-- Data rate 20 Hz -/
def DR_20HZ : Nat := 0x00
/-- Data rate 45 Hz -/
def DR_45HZ : Nat := 0x20
/-- Data rate 90 Hz -/
def DR_90HZ : Nat := 0x40
/-- Data rate 175 Hz -/
def DR_175HZ : Nat := 0x60
/-- Data rate 330 Hz -/
def DR_330HZ : Nat := 0x80
/-- Data rate 600 Hz -/
def DR_600HZ : Nat := 0xA0
/-- Data rate 1000 Hz -/
def DR_1000HZ : Nat := 0xC0

end TurboHAT

/-- The Python expression `chan & 0x03` from `read_channel`, for an
arbitrary (possibly negative) Python integer argument.  Python's bitwise
AND on ints is two's-complement bitwise AND, which is exactly
`Int.land`; the result of masking with 3 is nonnegative, and is carried
as a natural number for use in the payload byte. -/
def maskChan (chan : Int) : Nat := (Int.land chan 3).toNat

/-- The Python expression
`((adc_data & 0x00FF) << 8) | ((adc_data & 0xFF00) >> 8)`
from the last line of `read_channel`: the two bytes of the raw word are
swapped. -/
def swapBytes (adc_data : Nat) : Nat :=
  ((adc_data &&& 0x00FF) <<< 8) ||| ((adc_data &&& 0xFF00) >>> 8)

/-- The two's-complement signed 16-bit interpretation of a raw 16-bit
word.  This definition follows the SPEC's words ("interpreting the result
as signed", "two's-complement interpretation"); it is used to compare the
spec's claimed decoding with what the code computes. -/
def signed16 (w : Nat) : Int :=
  if w < 0x8000 then (w : Int) else (w : Int) - 65536

/-- The DRDY polling loop of `read_channel`:

    counter = 0
    while gpio.input (self._drdy_pin):
        time.sleep (0.01)
        counter += 1
        if counter > 100000:
            raise IOError ("Timeout waiting for ADS112C04")

`pollFrom drdy pin counter` runs the loop from counter value `counter`;
the n-th read of the line returns `drdy n` (true = high = not ready).
It returns `(timedOut, trace)`: `timedOut` is true exactly when the
IOError is raised, and the trace records the GPIO reads and sleeps in
order (up to and including the iteration that raises). -/
def pollFrom (drdy : Nat → Bool) (pin : Nat) (counter : Nat) :
    Bool × List Event :=
  if drdy counter then
    if h : counter + 1 > 100000 then
      (true, [Event.gpioInput pin, Event.sleep10ms])
    else
      let r := pollFrom drdy pin (counter + 1)
      (r.1, Event.gpioInput pin :: Event.sleep10ms :: r.2)
  else
    (false, [Event.gpioInput pin])
termination_by 100001 - counter
decreasing_by omega

/-- `TurboHAT.__init__` (minus storing the attributes, which is the
construction of the returned record): set the reset pin up as an output,
the DRDY pin as an input with pull-up, drive the reset pin high so the
ADC operates, then write config register 1 with the reference voltage
and data rate.  Returns the constructed driver state and the trace. -/
def TurboHAT.init (i2c_address reset_pin drdy_pin ref_voltage data_rate : Nat) :
    TurboHAT × List Event :=
  (⟨i2c_address, reset_pin, drdy_pin, ref_voltage, data_rate⟩,
   [Event.gpioSetupOut reset_pin,
    Event.gpioSetupInPullUp drdy_pin,
    Event.gpioOutput reset_pin true,
    Event.i2cWriteByteData i2c_address
      (TurboHAT.CMD_WREG ||| (TurboHAT.REG_CFG_1 <<< 2))
      (ref_voltage ||| data_rate)])

/-- `TurboHAT.clean_up`: release the GPIO pins and close the bus. -/
def TurboHAT.clean_up (self : TurboHAT) : TurboHAT × List Event :=
  (self, [Event.gpioCleanup, Event.i2cClose])

/-- `TurboHAT.show_ADC_registers`: for reggie in range(4), read one byte
with command `CMD_RDATA | (reggie << 2)` and print it.  Returns the list
of printed register values, the (unchanged, no attribute is assigned)
driver state, and the trace. -/
def TurboHAT.show_ADC_registers (self : TurboHAT) (env : Env) :
    List Nat × TurboHAT × List Event :=
  ((List.range 4).map
      (fun reggie => env.regByte (TurboHAT.CMD_RDATA ||| (reggie <<< 2))),
   self,
   (List.range 4).map
      (fun reggie =>
        Event.i2cReadByteData self._address
          (TurboHAT.CMD_RDATA ||| (reggie <<< 2))))

/-- `TurboHAT.read_channel`: write config register 0 to select the
channel (single-ended, payload `(0x08 | (chan & 0x03)) << 4`), send the
START/SYNC command byte, wait for the DRDY line to go low (raising
IOError on timeout), then read the 16-bit word and return it with its
bytes swapped.  The method assigns no instance attribute, so the driver
state it returns is its argument. -/
def TurboHAT.read_channel (self : TurboHAT) (env : Env) (chan : Int) :
    Except String Nat × TurboHAT × List Event :=
  let muxEvt : Event :=
    Event.i2cWriteByteData self._address
      (TurboHAT.CMD_WREG ||| (TurboHAT.REG_CFG_0 <<< 2))
      ((0x08 ||| maskChan chan) <<< 4)
  let startEvt : Event := Event.i2cWriteByte self._address TurboHAT.CMD_START_SYNC
  let poll := pollFrom env.drdy self._drdy_pin 0
  if poll.1 then
    (Except.error "Timeout waiting for ADS112C04", self,
     muxEvt :: startEvt :: poll.2)
  else
    (Except.ok (swapBytes env.word), self,
     muxEvt :: startEvt ::
       (poll.2 ++ [Event.i2cReadWordData self._address TurboHAT.CMD_RDATA]))

/-- An I2C bus transaction (read or write). -/
def Event.isBusTxn : Event → Bool
  | .i2cWriteByteData _ _ _ => true
  | .i2cWriteByte _ _ => true
  | .i2cReadByteData _ _ => true
  | .i2cReadWordData _ _ => true
  | _ => false

/-- An I2C write transaction. -/
def Event.isBusWrite : Event → Bool
  | .i2cWriteByteData _ _ _ => true
  | .i2cWriteByte _ _ => true
  | _ => false

/-- The 16-bit data read transaction (`read_word_data`). -/
def Event.isDataRead : Event → Bool
  | .i2cReadWordData _ _ => true
  | _ => false

/-- A register write (`write_byte_data`) transaction. -/
def Event.isRegWrite : Event → Bool
  | .i2cWriteByteData _ _ _ => true
  | _ => false

/-- A bare command byte write (`write_byte`) transaction. -/
def Event.isCmdWrite : Event → Bool
  | .i2cWriteByte _ _ => true
  | _ => false

/-- A write to configuration register 1 (WREG opcode with register 1's
address in bits 2-3). -/
def Event.isReg1Write : Event → Bool
  | .i2cWriteByteData _ cmd _ =>
      cmd == (TurboHAT.CMD_WREG ||| (TurboHAT.REG_CFG_1 <<< 2))
  | _ => false

/-- A read of the DRDY line. -/
def Event.isPoll : Event → Bool
  | .gpioInput _ => true
  | _ => false

/-- A GPIO output drive (the only kind of event that changes a pin
level). -/
def Event.isGpioDrive : Event → Bool
  | .gpioOutput _ _ => true
  | _ => false

/-- Effect of one event on the GPIO pin levels: a `gpioOutput` sets its
pin, every other event leaves all levels alone. -/
def applyEvent (levels : Nat → Bool) : Event → (Nat → Bool)
  | .gpioOutput pin lvl => fun p => if p = pin then lvl else levels p
  | _ => levels

/-- Run a trace of events over the GPIO pin levels. -/
def runEvents (levels : Nat → Bool) : List Event → (Nat → Bool)
  | [] => levels
  | e :: es => runEvents (applyEvent levels e) es

/-- A transport stub that reports data-ready immediately (the DRDY line
reads low at the first poll) and delivers raw word `w` on the data
read. -/
def envReady (w : Nat) : Env := ⟨fun _ => false, fun _ => 0, w⟩

/-- A transport stub whose DRDY line never reads low. -/
def envTimeout : Env := ⟨fun _ => true, fun _ => 0, 0⟩

/-- A driver instance with the default wiring of the board: address
0x40, reset on GPIO 12, DRDY on GPIO 16, supply reference, 20 Hz. -/
def hat0 : TurboHAT :=
  ⟨0x40, 12, 16, TurboHAT.VREF_SUP, TurboHAT.DR_20HZ⟩

/-- If the DRDY line reads low at the current poll, the loop exits at
once with a single GPIO read in its trace. -/
theorem pollFrom_ready (drdy : Nat → Bool) (pin counter : Nat)
    (h : drdy counter = false) :
    pollFrom drdy pin counter = (false, [Event.gpioInput pin]) := by
  rw [pollFrom, h]
  simp

/-- Every event the polling loop emits is a read of the DRDY pin or a
sleep. -/
theorem pollFrom_events (drdy : Nat → Bool) (pin counter : Nat) :
    ∀ e ∈ (pollFrom drdy pin counter).2,
      e = Event.gpioInput pin ∨ e = Event.sleep10ms := by
  induction counter using pollFrom.induct drdy pin with
  | case1 counter hd hc =>
      rw [pollFrom, hd]
      simp only [if_true, dif_pos hc]
      simp
  | case2 counter hd hc ih =>
      rw [pollFrom, hd]
      simp only [if_true, dif_neg hc]
      intro e he
      simp only [List.mem_cons] at he
      rcases he with h1 | h1 | h1
      · exact Or.inl h1
      · exact Or.inr h1
      · exact ih e h1
  | case3 counter hd =>
      rw [pollFrom_ready drdy pin counter (by simpa using hd)]
      intro e he
      simp at he
      exact Or.inl he

/-- The polling loop reads the DRDY line at most `100001 - counter`
times when started at counter value `counter ≤ 100000`. -/
theorem pollFrom_poll_bound (drdy : Nat → Bool) (pin counter : Nat) :
    counter ≤ 100000 →
    (pollFrom drdy pin counter).2.countP Event.isPoll ≤ 100001 - counter := by
  induction counter using pollFrom.induct drdy pin with
  | case1 counter hd hc =>
      intro h
      rw [pollFrom, hd]
      simp only [if_true, dif_pos hc]
      simp [List.countP_cons, Event.isPoll]
      omega
  | case2 counter hd hc ih =>
      intro h
      rw [pollFrom, hd]
      simp only [if_true, dif_neg hc]
      have := ih (by omega)
      simp [List.countP_cons, Event.isPoll]
      omega
  | case3 counter hd =>
      intro h
      rw [pollFrom_ready drdy pin counter (by simpa using hd)]
      simp [List.countP_cons, Event.isPoll]
      omega

/-- If the DRDY line never goes low, the polling loop (started at
counter value `counter ≤ 100000`) times out after exactly
`100001 - counter` reads of the line. -/
theorem pollFrom_timeout (drdy : Nat → Bool) (pin : Nat)
    (h : ∀ n, drdy n = true) (counter : Nat) :
    counter ≤ 100000 →
    (pollFrom drdy pin counter).1 = true ∧
    (pollFrom drdy pin counter).2.countP Event.isPoll = 100001 - counter := by
  induction counter using pollFrom.induct drdy pin with
  | case1 counter hd hc2 =>
      intro hc
      rw [pollFrom, hd]
      simp only [if_true, dif_pos hc2]
      simp [List.countP_cons, Event.isPoll]
      omega
  | case2 counter hd hc2 ih =>
      intro hc
      rw [pollFrom, hd]
      simp only [if_true, dif_neg hc2]
      have := ih (by omega)
      simp [List.countP_cons, Event.isPoll]
      constructor
      · exact this.1
      · omega
  | case3 counter hd =>
      intro hc
      rw [h counter] at hd
      simp at hd

/-- Unfolding of `read_channel` when the poll loop times out: the
IOError propagates and the trace is the two writes followed by the poll
events, with no data read. -/
theorem read_channel_timedOut (self : TurboHAT) (env : Env) (chan : Int)
    (h : (pollFrom env.drdy self._drdy_pin 0).1 = true) :
    self.read_channel env chan =
      (Except.error "Timeout waiting for ADS112C04", self,
       Event.i2cWriteByteData self._address
           (TurboHAT.CMD_WREG ||| (TurboHAT.REG_CFG_0 <<< 2))
           ((0x08 ||| maskChan chan) <<< 4) ::
         Event.i2cWriteByte self._address TurboHAT.CMD_START_SYNC ::
         (pollFrom env.drdy self._drdy_pin 0).2) := by
  simp [TurboHAT.read_channel, h]

/-- Unfolding of `read_channel` when the poll loop sees the line low in
time: the byte-swapped word is returned and the trace ends with the one
data read. -/
theorem read_channel_done (self : TurboHAT) (env : Env) (chan : Int)
    (h : (pollFrom env.drdy self._drdy_pin 0).1 = false) :
    self.read_channel env chan =
      (Except.ok (swapBytes env.word), self,
       Event.i2cWriteByteData self._address
           (TurboHAT.CMD_WREG ||| (TurboHAT.REG_CFG_0 <<< 2))
           ((0x08 ||| maskChan chan) <<< 4) ::
         Event.i2cWriteByte self._address TurboHAT.CMD_START_SYNC ::
         ((pollFrom env.drdy self._drdy_pin 0).2 ++
          [Event.i2cReadWordData self._address TurboHAT.CMD_RDATA])) := by
  simp [TurboHAT.read_channel, h]

/-- A trace without GPIO drives leaves every pin level unchanged. -/
theorem runEvents_no_drive (l : List Event)
    (h : ∀ e ∈ l, Event.isGpioDrive e = false) (st : Nat → Bool) :
    runEvents st l = st := by
  induction l generalizing st with
  | nil => rfl
  | cons e es ih =>
      have he := h e (by simp)
      have h2 : applyEvent st e = st := by
        cases e <;> first | rfl | simp [Event.isGpioDrive] at he
      rw [runEvents, h2]
      exact ih (fun e2 he2 => h e2 (by simp [he2])) st

theorem land_ofNat3 (m : Nat) :
    Int.land (Int.ofNat m) 3 = Int.ofNat (m &&& 3) := rfl

theorem land_negSucc3 (m : Nat) :
    Int.land (Int.negSucc m) 3 = Int.ofNat (Nat.ldiff 3 m) := rfl

theorem ldiff3_and3 (m : Nat) : (Nat.ldiff 3 m) &&& 3 = Nat.ldiff 3 m := by
  apply Nat.eq_of_testBit_eq
  intro i
  rw [Nat.testBit_and, Nat.testBit_ldiff]
  cases h3 : Nat.testBit 3 i <;> cases hm : Nat.testBit m i <;> simp

/-- Masking with 3 is idempotent on Python integers. -/
theorem land_land3 (chan : Int) :
    Int.land (Int.land chan 3) 3 = Int.land chan 3 := by
  cases chan with
  | ofNat m =>
      rw [land_ofNat3, land_ofNat3, Nat.and_assoc]
      norm_num
  | negSucc m =>
      rw [land_negSucc3, land_ofNat3, ldiff3_and3]

theorem maskChan_mask (chan : Int) :
    maskChan (Int.land chan 3) = maskChan chan := by
  unfold maskChan
  rw [land_land3]

/-- The byte-swapped word always fits in 16 bits. -/
theorem swapBytes_le (w : Nat) : swapBytes w ≤ 65535 := by
  have h0 : w &&& 0x00FF ≤ 0x00FF := Nat.and_le_right
  have h0b : w &&& 0xFF00 ≤ 0xFF00 := Nat.and_le_right
  have h1 : (w &&& 0x00FF) <<< 8 < 2 ^ 16 := by
    rw [Nat.shiftLeft_eq]
    calc (w &&& 0x00FF) * 2 ^ 8 ≤ 0x00FF * 2 ^ 8 := Nat.mul_le_mul_right _ h0
    _ < 2 ^ 16 := by norm_num
  have h2 : (w &&& 0xFF00) >>> 8 < 2 ^ 16 := by
    calc (w &&& 0xFF00) >>> 8 = (w &&& 0xFF00) / 2 ^ 8 :=
          Nat.shiftRight_eq_div_pow _ _
    _ ≤ 0xFF00 / 2 ^ 8 := Nat.div_le_div_right h0b
    _ < 2 ^ 16 := by norm_num
  have h3 := Nat.or_lt_two_pow h1 h2
  unfold swapBytes
  norm_num at h3
  omega

/-- The polling loop emits no event that a predicate rejecting GPIO
reads and sleeps accepts. -/
theorem pollFrom_countP_zero (drdy : Nat → Bool) (pin counter : Nat)
    (p : Event → Bool) (hi : p (Event.gpioInput pin) = false)
    (hs : p Event.sleep10ms = false) :
    (pollFrom drdy pin counter).2.countP p = 0 := by
  rw [List.countP_eq_zero]
  intro e he
  rcases pollFrom_events drdy pin counter e he with h | h <;>
    subst h <;> simp [hi, hs]

/-- C1 (code bug exhibited): the spec and the docstring of
`read_channel` say the returned value is the two's-complement SIGNED
16-bit interpretation of the byte-swapped raw word, but the code never
sign-extends.  On the spec's own example (raw word 0x1234, DRDY ready
immediately) the code agrees with the claim and returns 13330; but on
raw word 0x0080 the byte-swapped value is 0x8000, whose signed
interpretation is -32768, while the code returns the plain unsigned
32768. -/
theorem C1_decode_not_signed :
    (hat0.read_channel (envReady 0x1234) 2).1 = Except.ok 13330 ∧
    signed16 (swapBytes 0x1234) = 13330 ∧
    (hat0.read_channel (envReady 0x0080) 2).1 = Except.ok 32768 ∧
    signed16 (swapBytes 0x0080) = -32768 ∧
    ((32768 : Int) ≠ -32768) := by
  have hp : ∀ w, (pollFrom (envReady w).drdy hat0._drdy_pin 0).1 = false := by
    intro w
    rw [pollFrom_ready]
    rfl
  refine ⟨?_, by decide, ?_, by decide, by decide⟩
  · rw [read_channel_done hat0 (envReady 0x1234) 2 (hp 0x1234)]
    rfl
  · rw [read_channel_done hat0 (envReady 0x0080) 2 (hp 0x0080)]
    rfl

/-- C3: whatever 16-bit word the transport returns, a successful
`read_channel` returns a nonnegative integer between 0 and 65535; it
never returns a negative number. -/
theorem C3_result_in_unsigned_range (self : TurboHAT) (env : Env)
    (chan : Int) (v : Nat)
    (h : (self.read_channel env chan).1 = Except.ok v) :
    (0 : Int) ≤ (v : Int) ∧ v ≤ 65535 := by
  have hv : v = swapBytes env.word := by
    cases hp : (pollFrom env.drdy self._drdy_pin 0).1
    · rw [read_channel_done self env chan hp] at h
      simpa using h.symm
    · rw [read_channel_timedOut self env chan hp] at h
      simp at h
  exact ⟨Int.natCast_nonneg v, hv ▸ swapBytes_le env.word⟩

/-- Witness for C3 at raw word 0x1234 on channel 2. -/
theorem C3_result_in_unsigned_range_witness :
    (0 : Int) ≤ ((13330 : Nat) : Int) ∧ (13330 : Nat) ≤ 65535 := by
  apply C3_result_in_unsigned_range hat0 (envReady 0x1234) 2
  have hp : (pollFrom (envReady 0x1234).drdy hat0._drdy_pin 0).1 = false := by
    rw [pollFrom_ready]
    rfl
  rw [read_channel_done hat0 (envReady 0x1234) 2 hp]
  rfl

/-- C2 (amended): if the DRDY line never reads low, `read_channel`
raises IOError "Timeout waiting for ADS112C04" after exactly 100001
polls of the line (the loop counter must strictly exceed the configured
bound of 100000), and issues no data-read bus transaction at all. -/
theorem C2_timeout_no_data_read (self : TurboHAT) (env : Env) (chan : Int)
    (h : ∀ n, env.drdy n = true) :
    (self.read_channel env chan).1 =
      Except.error "Timeout waiting for ADS112C04" ∧
    (self.read_channel env chan).2.2.countP Event.isPoll = 100001 ∧
    (self.read_channel env chan).2.2.countP Event.isDataRead = 0 := by
  have hp := pollFrom_timeout env.drdy self._drdy_pin h 0 (by omega)
  rw [read_channel_timedOut self env chan hp.1]
  refine ⟨rfl, ?_, ?_⟩
  · simp [List.countP_cons, Event.isPoll]
    exact hp.2
  · rw [List.countP_cons, List.countP_cons,
        pollFrom_countP_zero env.drdy self._drdy_pin 0 Event.isDataRead rfl rfl]
    simp [Event.isDataRead]

/-- Witness for C2 on the never-ready stub, channel 1. -/
theorem C2_timeout_no_data_read_witness :
    (hat0.read_channel envTimeout 1).1 =
      Except.error "Timeout waiting for ADS112C04" ∧
    (hat0.read_channel envTimeout 1).2.2.countP Event.isPoll = 100001 ∧
    (hat0.read_channel envTimeout 1).2.2.countP Event.isDataRead = 0 :=
  C2_timeout_no_data_read hat0 envTimeout 1 (fun _ => rfl)

/-- C2 counterexample to the claim as stated: at the timeout the line
has been polled 100001 times, not the configured bound of 100000 (the
loop body runs once more after the counter reaches the bound, because
the raise requires the counter to strictly exceed it). -/
theorem C2_poll_count_is_not_100000 :
    ¬ ((hat0.read_channel envTimeout 1).2.2.countP Event.isPoll = 100000) := by
  have hp := pollFrom_timeout envTimeout.drdy hat0._drdy_pin
    (fun _ => rfl) 0 (by omega)
  rw [read_channel_timedOut hat0 envTimeout 1 hp.1]
  simp [List.countP_cons, Event.isPoll]
  rw [hp.2]
  omega

/-- C4: for a channel in {0,1,2,3}, the first bus transaction of
`read_channel` is a write-register transaction whose command byte is the
WRITE-REGISTER opcode with register 0's address in bits 2-3, and whose
payload has upper nibble `0x8 | chan` and lower nibble zero. -/
theorem C4_mux_write_first (self : TurboHAT) (env : Env) (chan : Int)
    (h0 : 0 ≤ chan) (h4 : chan < 4) :
    ∃ p : Nat,
      (self.read_channel env chan).2.2.head? =
        some (Event.i2cWriteByteData self._address
          (TurboHAT.CMD_WREG ||| (TurboHAT.REG_CFG_0 <<< 2)) p) ∧
      p >>> 4 = 0x8 ||| chan.toNat ∧
      p &&& 0xF = 0 ∧
      ((TurboHAT.CMD_WREG ||| (TurboHAT.REG_CFG_0 <<< 2)) >>> 2) &&& 3 =
        TurboHAT.REG_CFG_0 := by
  refine ⟨(0x08 ||| maskChan chan) <<< 4, ?_, ?_, ?_, by decide⟩
  · cases hp : (pollFrom env.drdy self._drdy_pin 0).1
    · rw [read_channel_done self env chan hp]
      rfl
    · rw [read_channel_timedOut self env chan hp]
      rfl
  · interval_cases chan <;> decide
  · interval_cases chan <;> decide

/-- Witness for C4 at channel 2. -/
theorem C4_mux_write_first_witness :
    (0 : Int) ≤ 2 ∧ (2 : Int) < 4 ∧
    (∃ p : Nat,
      (hat0.read_channel (envReady 0x1234) 2).2.2.head? =
        some (Event.i2cWriteByteData hat0._address
          (TurboHAT.CMD_WREG ||| (TurboHAT.REG_CFG_0 <<< 2)) p) ∧
      p >>> 4 = 0x8 ||| (2 : Int).toNat ∧
      p &&& 0xF = 0 ∧
      ((TurboHAT.CMD_WREG ||| (TurboHAT.REG_CFG_0 <<< 2)) >>> 2) &&& 3 =
        TurboHAT.REG_CFG_0) :=
  ⟨by decide, by decide,
   C4_mux_write_first hat0 (envReady 0x1234) 2 (by decide) (by decide)⟩

/-- C5: construction issues exactly one bus transaction, a
write-register with register 1's address encoded in bits 2-3 and payload
`ref_voltage | data_rate`; with the supply reference and 20 Hz data rate
that payload byte is 0x04. -/
theorem C5_init_one_reg1_write (a r d v dr : Nat) :
    (TurboHAT.init a r d v dr).2.filter Event.isBusTxn =
      [Event.i2cWriteByteData a
        (TurboHAT.CMD_WREG ||| (TurboHAT.REG_CFG_1 <<< 2)) (v ||| dr)] ∧
    ((TurboHAT.CMD_WREG ||| (TurboHAT.REG_CFG_1 <<< 2)) >>> 2) &&& 3 =
      TurboHAT.REG_CFG_1 ∧
    TurboHAT.VREF_SUP ||| TurboHAT.DR_20HZ = 0x04 := by
  refine ⟨?_, by decide, by decide⟩
  simp [TurboHAT.init, Event.isBusTxn]

/-- C7: the register dump issues exactly four byte reads, for registers
0,1,2,3 in increasing order, each command byte carrying the register
index in bits 2-3; it reports the four raw bytes in that same order and
issues no write transaction. -/
theorem C7_register_dump (self : TurboHAT) (env : Env) :
    (self.show_ADC_registers env).2.2 =
      [Event.i2cReadByteData self._address (TurboHAT.CMD_RDATA ||| (0 <<< 2)),
       Event.i2cReadByteData self._address (TurboHAT.CMD_RDATA ||| (1 <<< 2)),
       Event.i2cReadByteData self._address (TurboHAT.CMD_RDATA ||| (2 <<< 2)),
       Event.i2cReadByteData self._address (TurboHAT.CMD_RDATA ||| (3 <<< 2))] ∧
    (self.show_ADC_registers env).1 =
      [env.regByte (TurboHAT.CMD_RDATA ||| (0 <<< 2)),
       env.regByte (TurboHAT.CMD_RDATA ||| (1 <<< 2)),
       env.regByte (TurboHAT.CMD_RDATA ||| (2 <<< 2)),
       env.regByte (TurboHAT.CMD_RDATA ||| (3 <<< 2))] ∧
    (∀ r : Nat, r < 4 →
      ((TurboHAT.CMD_RDATA ||| (r <<< 2)) >>> 2) &&& 3 = r) ∧
    (self.show_ADC_registers env).2.2.countP Event.isBusWrite = 0 := by
  refine ⟨rfl, rfl, by decide, ?_⟩
  simp [TurboHAT.show_ADC_registers, Event.isBusWrite]

/-- C6: one call to `read_channel` issues exactly one multiplexer
register write, exactly one bare-command write which is the START/SYNC
byte, a bounded number (at most 100001) of DRDY polls and at most one
data read; it retries nothing, and on failure it returns an error and
has issued no data read (no partial result). -/
theorem C6_transaction_budget (self : TurboHAT) (env : Env) (chan : Int) :
    (self.read_channel env chan).2.2.countP Event.isRegWrite = 1 ∧
    (self.read_channel env chan).2.2.countP Event.isCmdWrite = 1 ∧
    (self.read_channel env chan).2.2.countP
      (fun e => decide
        (e = Event.i2cWriteByte self._address TurboHAT.CMD_START_SYNC)) = 1 ∧
    (self.read_channel env chan).2.2.countP Event.isPoll ≤ 100001 ∧
    (((self.read_channel env chan).1 =
        Except.error "Timeout waiting for ADS112C04" ∧
      (self.read_channel env chan).2.2.countP Event.isDataRead = 0) ∨
     ((self.read_channel env chan).1 = Except.ok (swapBytes env.word) ∧
      (self.read_channel env chan).2.2.countP Event.isDataRead = 1)) := by
  have hz1 := pollFrom_countP_zero env.drdy self._drdy_pin 0
    Event.isRegWrite rfl rfl
  have hz2 := pollFrom_countP_zero env.drdy self._drdy_pin 0
    Event.isCmdWrite rfl rfl
  have hz3 := pollFrom_countP_zero env.drdy self._drdy_pin 0
    (fun e => decide
      (e = Event.i2cWriteByte self._address TurboHAT.CMD_START_SYNC))
    (by simp) (by simp)
  have hz4 := pollFrom_countP_zero env.drdy self._drdy_pin 0
    Event.isDataRead rfl rfl
  have hb := pollFrom_poll_bound env.drdy self._drdy_pin 0 (by omega)
  cases hp : (pollFrom env.drdy self._drdy_pin 0).1
  · rw [read_channel_done self env chan hp]
    refine ⟨?_, ?_, ?_, ?_, Or.inr ⟨rfl, ?_⟩⟩
    · simp only [List.countP_cons, List.countP_append, hz1]
      simp [Event.isRegWrite]
    · simp only [List.countP_cons, List.countP_append, hz2]
      simp [Event.isCmdWrite]
    · simp only [List.countP_cons, List.countP_append, hz3]
      simp
    · simp only [List.countP_cons, List.countP_append]
      simp [Event.isPoll]
      omega
    · simp only [List.countP_cons, List.countP_append, hz4]
      simp [Event.isDataRead]
  · rw [read_channel_timedOut self env chan hp]
    refine ⟨?_, ?_, ?_, ?_, Or.inl ⟨rfl, ?_⟩⟩
    · simp only [List.countP_cons, hz1]
      simp [Event.isRegWrite]
    · simp only [List.countP_cons, hz2]
      simp [Event.isCmdWrite]
    · simp only [List.countP_cons, hz3]
      simp
    · simp only [List.countP_cons]
      simp [Event.isPoll]
      omega
    · simp only [List.countP_cons, hz4]
      simp [Event.isDataRead]

/-- C8: `read_channel` performs no range validation: it masks the
channel argument to its low two bits, so the call for any integer
`chan` behaves identically (same result, same state, same transaction
trace) to the call for `chan & 0x03`. -/
theorem C8_channel_masked_to_two_bits (self : TurboHAT) (env : Env)
    (chan : Int) :
    self.read_channel env chan = self.read_channel env (Int.land chan 3) := by
  unfold TurboHAT.read_channel
  rw [maskChan_mask]

/-- C9: during construction the reset line is set up as an output and
driven high (out of reset), and the DRDY line is set up as an input
with pull-up, all strictly before the only bus transaction. -/
theorem C9_reset_before_bus (a r d v dr : Nat) :
    ∃ pre post,
      (TurboHAT.init a r d v dr).2 = pre ++ post ∧
      Event.gpioSetupOut r ∈ pre ∧
      Event.gpioOutput r true ∈ pre ∧
      Event.gpioSetupInPullUp d ∈ pre ∧
      (∀ e ∈ pre, Event.isBusTxn e = false) := by
  refine ⟨[Event.gpioSetupOut r, Event.gpioSetupInPullUp d,
           Event.gpioOutput r true],
          [Event.i2cWriteByteData a
            (TurboHAT.CMD_WREG ||| (TurboHAT.REG_CFG_1 <<< 2)) (v ||| dr)],
          rfl, by simp, by simp, by simp, ?_⟩
  intro e he
  simp only [List.mem_cons, List.not_mem_nil, or_false] at he
  rcases he with h | h | h <;> subst h <;> rfl

/-- C10: after construction, `read_channel` and `show_ADC_registers`
leave the driver fields unchanged and leave every GPIO pin level (in
particular the reset line, driven high by construction) untouched; a
write to register 1 happens exactly once, in the construction trace,
and never in either method. -/
theorem C10_field_and_reset_invariants (self : TurboHAT) (env : Env)
    (chan : Int) (st : Nat → Bool) (a r d v dr : Nat) :
    (self.read_channel env chan).2.1 = self ∧
    runEvents st (self.read_channel env chan).2.2 = st ∧
    (self.read_channel env chan).2.2.countP Event.isReg1Write = 0 ∧
    (self.show_ADC_registers env).2.1 = self ∧
    runEvents st (self.show_ADC_registers env).2.2 = st ∧
    (self.show_ADC_registers env).2.2.countP Event.isReg1Write = 0 ∧
    (TurboHAT.init a r d v dr).2.countP Event.isReg1Write = 1 ∧
    runEvents st (TurboHAT.init a r d v dr).2 r = true := by
  have hz := pollFrom_countP_zero env.drdy self._drdy_pin 0
    Event.isReg1Write rfl rfl
  have hdrive : ∀ e ∈ (pollFrom env.drdy self._drdy_pin 0).2,
      Event.isGpioDrive e = false := by
    intro e he
    rcases pollFrom_events env.drdy self._drdy_pin 0 e he with h | h <;>
      subst h <;> rfl
  refine ⟨?_, ?_, ?_, rfl, ?_, ?_, ?_, ?_⟩
  · cases hp : (pollFrom env.drdy self._drdy_pin 0).1
    · rw [read_channel_done self env chan hp]
    · rw [read_channel_timedOut self env chan hp]
  · apply runEvents_no_drive
    intro e he
    cases hp : (pollFrom env.drdy self._drdy_pin 0).1 <;>
      [rw [read_channel_done self env chan hp] at he;
       rw [read_channel_timedOut self env chan hp] at he] <;>
      simp only [List.mem_cons, List.mem_append, List.not_mem_nil,
        or_false] at he <;>
      rcases he with h | h | h <;>
      first
        | (subst h; rfl)
        | (rcases h with h | h
           · exact hdrive e h
           · subst h; rfl)
        | exact hdrive e h
  · cases hp : (pollFrom env.drdy self._drdy_pin 0).1
    · rw [read_channel_done self env chan hp]
      simp only [List.countP_cons, List.countP_append, hz]
      simp [Event.isReg1Write, TurboHAT.CMD_WREG, TurboHAT.REG_CFG_0,
        TurboHAT.REG_CFG_1]
    · rw [read_channel_timedOut self env chan hp]
      simp only [List.countP_cons, hz]
      simp [Event.isReg1Write, TurboHAT.CMD_WREG, TurboHAT.REG_CFG_0,
        TurboHAT.REG_CFG_1]
  · apply runEvents_no_drive
    intro e he
    simp only [TurboHAT.show_ADC_registers] at he
    simp only [List.mem_map, List.mem_range] at he
    obtain ⟨reggie, _, h⟩ := he
    subst h
    rfl
  · simp [TurboHAT.show_ADC_registers, List.countP_eq_zero,
      Event.isReg1Write]
  · simp [TurboHAT.init, List.countP_cons, Event.isReg1Write]
  · simp [TurboHAT.init, runEvents, applyEvent]
